import Mathlib

/-!
Verification development for the client-side session core of the
VideoConf repository (React component `Room.jsx`, first evolution unless
noted otherwise).  The mutable refs and state hooks of the React component are
embedded as one state record `RoomModel`; every socket / peer event
handler of the source becomes a Lean function on that record, and the
single-threaded event loop becomes a fold of a `step` function over a
list of events.  Side effects that matter to the claims (placing calls,
answering calls, stopping tracks, closing calls, destroying the peer,
disconnecting the socket, clearing the established flag) are recorded in
an `Action` trace returned next to the new state.
-/

namespace VideoConf

/-- Admission room state, mirroring the React `roomState` state hook
(`"connecting" | "waiting" | "approved" | "denied"`). -/
inductive RoomStatus
  | connecting
  | waiting
  | approved
  | denied
deriving DecidableEq, Repr

/-- Kind of a media track. -/
inductive TrackKind
  | video
  | audio
deriving DecidableEq, Repr

/-- A local media track handle: identity and kind.  Whether a track has
been stopped is recorded globally in the model (`stoppedIds`), because
tracks are shared mutable objects in the source. -/
structure Track where
  tid : Nat
  kind : TrackKind
deriving DecidableEq, Repr

/-- A media stream is its list of tracks (`MediaStream.getTracks()`). -/
abbrev Stream := List Track

/-- Source expression `stream.getVideoTracks()[0]` or `getAudioTracks()[0]`: the id
of the first track of the given kind, if any. -/
def firstTrackId (st : Stream) (k : TrackKind) : Option Nat :=
  ((st.filter (fun t => t.kind == k)).head?).map Track.tid

/-- One entry of the `participants` React state.  JavaScript objects may
lack fields, so every field is an `Option`; a field absent from the
object is `none`. -/
structure ParticipantEntry where
  pid : Option String
  peerId : Option String
  username : Option String
  stream : Option Nat
  call : Option Nat
  audioEnabled : Option Bool
  videoEnabled : Option Bool
deriving DecidableEq, Repr

/-- The empty JavaScript object (spread of `undefined`). -/
def ParticipantEntry.empty : ParticipantEntry :=
  ⟨none, none, none, none, none, none, none⟩

/-- One peer call object created by `peer.call(...)` (outbound) or
delivered by the peer `call` event and answered (inbound).  The sender
fields mirror the RTCPeerConnection senders created from the tracks of
the stream supplied at `call` / `answer` time; each holds the id of the
track it currently sends. -/
structure MediaCall where
  peer : String
  inbound : Bool
  uname : Option String
  videoSender : Option Nat
  audioSender : Option Nat
  closed : Bool
deriving DecidableEq, Repr

/-- JavaScript object semantics for string-keyed maps, as association
lists: `setKey` is `obj[k] = v` (replaces in place, appends when new). -/
def setKey {α : Type} : List (String × α) → String → α → List (String × α)
  | [], k, v => [(k, v)]
  | (k', v') :: t, k, v =>
      if k' = k then (k, v) :: t else (k', v') :: setKey t k v

/-- Source statement `delete obj[k]`. -/
def eraseKey {α : Type} (l : List (String × α)) (k : String) : List (String × α) :=
  l.filter (fun kv => kv.1 != k)

/-- Source expression `obj[k]` (first binding wins; unique under the nodup invariant). -/
def lookupKey {α : Type} : List (String × α) → String → Option α
  | [], _ => none
  | (k', v) :: t, k => if k' = k then some v else lookupKey t k

/-- Keys of an association list. -/
def keysOf {α : Type} (l : List (String × α)) : List String :=
  l.map Prod.fst

/-- The session state of the `Room` component (first evolution): the
React state hooks and refs that the claims are about.  `peers` is
`peersRef.current`, mapping a remote peer id to the index of its call in
the append-only `calls` log; `stoppedIds` records which track ids have
been stopped; `videoEnabled` is the React `videoEnabled` state. -/
structure RoomModel where
  participants : List (String × ParticipantEntry)
  roomState : RoomStatus
  isHost : Bool
  connectionEstablished : Bool
  myPeerId : String
  streamRef : Option Stream
  peerOpen : Bool
  peerDestroyed : Bool
  socketConnected : Bool
  peers : List (String × Nat)
  calls : List MediaCall
  stoppedIds : List Nat
  videoEnabled : Bool
deriving DecidableEq, Repr

/-- State directly after a successful `initializeConnection` with local
stream `st` (socket and peer created, nothing joined yet). -/
def initModel (st : Stream) : RoomModel :=
  { participants := []
    roomState := .connecting
    isHost := false
    connectionEstablished := false
    myPeerId := ""
    streamRef := some st
    peerOpen := false
    peerDestroyed := false
    socketConnected := true
    peers := []
    calls := []
    stoppedIds := []
    videoEnabled := true }

/-- Observable side effects recorded while handling an event.
`rejectedCall` is never produced by the embedded code; it is the effect
the rejection path of the specification would have had. -/
inductive Action
  | invokedMakeCall (p : String)
  | placedCall (p : String)
  | answeredCall (p : String) (withStream : Option Stream)
  | rejectedCall (p : String)
  | stopTrack (tid : Nat)
  | closeCall (i : Nat)
  | destroyPeer
  | disconnectSocket
  | clearEstablished
deriving DecidableEq, Repr

/-- External events delivered to the component: socket events, peer
events, per-call events (indexed into the `calls` log), and the local
user clicking the video toggle or leaving. -/
inductive Event
  | admissionStatus (status : String) (hostStatus : Bool)
  | peerOpenEvt (id : String)
  | userJoined (newPeerId : String) (newUsername : String)
  | roomParticipants (ps : List (String × String))
  | userLeft (peerId : String)
  | userRemoved (peerId : String)
  | userToggleAudio (peerId : String) (enabled : Bool)
  | userToggleVideo (peerId : String) (enabled : Bool)
  | incomingCall (fromPeer : String)
  | callStream (i : Nat) (remoteStream : Nat)
  | callClose (i : Nat)
  | callError (i : Nat)
  | toggleVideoClick (acquired : Option Stream)
  | leaveClick
deriving DecidableEq, Repr

/-- Source function `addParticipant(peerId, stream, call, username = "Unknown")`: build a
full participant object and store it under the peer id, overwriting any
previous entry wholesale. -/
def addParticipant (s : RoomModel) (p : String) (remoteStream : Nat) (i : Nat)
    (uname : Option String) : RoomModel :=
  let entry : ParticipantEntry :=
    { pid := some p
      peerId := some p
      username := some (uname.getD "Unknown")
      stream := some remoteStream
      call := some i
      audioEnabled := some true
      videoEnabled := some true }
  { s with participants := setKey s.participants p entry }

/-- Source function `removeParticipant(peerId)`: delete the registry entry (if any) and
the participants entry for that peer id. -/
def removeParticipant (s : RoomModel) (p : String) : RoomModel :=
  { s with peers := eraseKey s.peers p
           participants := eraseKey s.participants p }

/-- Source function `makeCall(remotePeerId, remoteUsername)` (first evolution): no-op
unless the peer transport is open and no registry entry exists for the
target; otherwise create an outbound call carrying the current local
stream and register it. -/
def makeCall (s : RoomModel) (p : String) (uname : String) :
    RoomModel × List Action :=
  if s.peerOpen = false ∨ (lookupKey s.peers p).isSome then
    (s, [.invokedMakeCall p])
  else
    let st := s.streamRef.getD []
    let c : MediaCall :=
      { peer := p
        inbound := false
        uname := some uname
        videoSender := firstTrackId st .video
        audioSender := firstTrackId st .audio
        closed := false }
    ({ s with calls := s.calls ++ [c]
              peers := setKey s.peers p s.calls.length },
     [.invokedMakeCall p, .placedCall p])

/-- The peer `call` handler (identical in both evolutions): answer
unconditionally with `streamRef.current`, wire the stream/close/error
handlers, and register the call. -/
def answerIncomingCall (s : RoomModel) (p : String) : RoomModel × List Action :=
  let st := s.streamRef.getD []
  let c : MediaCall :=
    { peer := p
      inbound := true
      uname := none
      videoSender := firstTrackId st .video
      audioSender := firstTrackId st .audio
      closed := false }
  ({ s with calls := s.calls ++ [c]
            peers := setKey s.peers p s.calls.length },
   [.answeredCall p s.streamRef])

/-- The `close` handler registered on every call (both evolutions, both
directions): evict participant and registry entry for the peer of the call. -/
def callCloseHandler (s : RoomModel) (i : Nat) : RoomModel :=
  match s.calls[i]? with
  | some c => removeParticipant s c.peer
  | none => s

/-- The `error` handler registered on every call of the first evolution
and on outbound calls of the second evolution: same eviction. -/
def callErrorHandler (s : RoomModel) (i : Nat) : RoomModel :=
  match s.calls[i]? with
  | some c => removeParticipant s c.peer
  | none => s

/-- The `error` handler wired on inbound calls by the second evolution
wiring: it only logs the error and removes nothing. -/
def callErrorHandlerSecondEvo (s : RoomModel) (i : Nat) : RoomModel :=
  match s.calls[i]? with
  | some c => if c.inbound then s else removeParticipant s c.peer
  | none => s

/-- Mark the call at index `i` closed (`call.close()`). -/
def closeCallAt (cs : List MediaCall) (i : Nat) : List MediaCall :=
  match cs[i]? with
  | some c => cs.set i { c with closed := true }
  | none => cs

/-- Sender update loop of `toggleVideo` (first evolution): on the
call at index `i`, replace the track of the video sender when the sender holds
a track and a new video track exists, and likewise for audio. -/
def replaceSenders (cs : List MediaCall) (i : Nat) (vt na : Option Nat) :
    List MediaCall :=
  match cs[i]? with
  | some c => cs.set i
      { c with
        videoSender := if c.videoSender.isSome && vt.isSome then vt else c.videoSender
        audioSender := if c.audioSender.isSome && na.isSome then na else c.audioSender }
  | none => cs

/-- Source loop `Object.values(peersRef.current).forEach(call => call.close())`. -/
def closeAllCalls (peers : List (String × Nat)) (cs : List MediaCall) :
    List MediaCall :=
  peers.foldl (fun acc pi => closeCallAt acc pi.2) cs

/-- Source function `cleanup()` (first evolution), in source order: clear the
established flag, stop every local track, close every registered call,
destroy the peer, disconnect the socket.  Registry and participants are
not touched. -/
def cleanup (s : RoomModel) : RoomModel × List Action :=
  let stopIds : List Nat :=
    match s.streamRef with
    | some st => st.map Track.tid
    | none => []
  let closedCalls := closeAllCalls s.peers s.calls
  ({ s with connectionEstablished := false
            stoppedIds := stopIds ++ s.stoppedIds
            calls := closedCalls
            peerDestroyed := true
            peerOpen := false
            socketConnected := false },
   [.clearEstablished]
     ++ stopIds.map Action.stopTrack
     ++ s.peers.map (fun pi => Action.closeCall pi.2)
     ++ (if s.peerDestroyed then [] else [Action.destroyPeer])
     ++ [.disconnectSocket])

/-- Source function `toggleVideo()` (first evolution).  `acquired` is the result of the
`getUserMedia` call performed when turning video on (`none` when it
throws).  Turning video off stops the video tracks and keeps an
audio-only stream without touching any sender; turning video on stops
the whole old stream, installs the new one and runs the sender
replacement loop over every registered call. -/
def toggleVideo (s : RoomModel) (acquired : Option Stream) :
    RoomModel × List Action :=
  if s.videoEnabled = false then
    match acquired with
    | none => (s, [])
    | some newStream =>
        let oldIds : List Nat :=
          match s.streamRef with
          | some st => st.map Track.tid
          | none => []
        let vt := firstTrackId newStream .video
        let na := firstTrackId newStream .audio
        let newCalls := s.peers.foldl (fun acc pi => replaceSenders acc pi.2 vt na) s.calls
        ({ s with stoppedIds := oldIds ++ s.stoppedIds
                  streamRef := some newStream
                  calls := newCalls
                  videoEnabled := true },
         oldIds.map Action.stopTrack)
  else
    match s.streamRef with
    | none => (s, [])
    | some st =>
        let vids := (st.filter (fun t => t.kind == .video)).map Track.tid
        ({ s with stoppedIds := vids ++ s.stoppedIds
                  streamRef := some (st.filter (fun t => t.kind == .audio))
                  videoEnabled := false },
         vids.map Action.stopTrack)

/-- The `admission-status` socket handler (first evolution): set the
room state from the status string of the event, unconditionally; `approved`
also records the host flag and sets `connectionEstablished`. -/
def onAdmissionStatus (s : RoomModel) (status : String) (hostStatus : Bool) :
    RoomModel :=
  if status = "approved" then
    { s with roomState := .approved
             isHost := hostStatus
             connectionEstablished := true }
  else if status = "waiting" then
    { s with roomState := .waiting }
  else if status = "denied" then
    { s with roomState := .denied }
  else s

/-- The `user-joined` socket handler (first evolution): call the new
peer only when its id is non-empty, differs from ours, and the session
is established. -/
def onUserJoined (s : RoomModel) (newPeerId newUsername : String) :
    RoomModel × List Action :=
  if newPeerId ≠ "" ∧ newPeerId ≠ s.myPeerId ∧ s.connectionEstablished then
    makeCall s newPeerId newUsername
  else (s, [])

/-- One iteration of the `room-participants` forEach body. -/
def roomParticipantsStep (acc : RoomModel × List Action) (pu : String × String) :
    RoomModel × List Action :=
  if pu.1 ≠ "" ∧ pu.1 ≠ acc.1.myPeerId then
    let r := makeCall acc.1 pu.1 pu.2
    (r.1, acc.2 ++ r.2)
  else acc

/-- The `room-participants` socket handler (first evolution): when the
session is established, call every listed peer whose id is non-empty and
differs from ours. -/
def onRoomParticipants (s : RoomModel) (ps : List (String × String)) :
    RoomModel × List Action :=
  if s.connectionEstablished then ps.foldl roomParticipantsStep (s, [])
  else (s, [])

/-- The `user-left` socket handler: close and drop the registry entry if
present, then drop the participants entry. -/
def onUserLeft (s : RoomModel) (p : String) : RoomModel × List Action :=
  if p ≠ "" then
    match lookupKey s.peers p with
    | some i =>
        ({ s with calls := closeCallAt s.calls i
                  peers := eraseKey s.peers p
                  participants := eraseKey s.participants p },
         [.closeCall i])
    | none => ({ s with participants := eraseKey s.participants p }, [])
  else ({ s with participants := eraseKey s.participants p }, [])

/-- The `user-toggle-audio` socket handler: spread the previous entry
(or the empty object) and override `audioEnabled`. -/
def onUserToggleAudio (s : RoomModel) (p : String) (enabled : Bool) : RoomModel :=
  let prev := (lookupKey s.participants p).getD ParticipantEntry.empty
  { s with participants := setKey s.participants p { prev with audioEnabled := some enabled } }

/-- The `user-toggle-video` socket handler: spread the previous entry
(or the empty object) and override `videoEnabled`. -/
def onUserToggleVideo (s : RoomModel) (p : String) (enabled : Bool) : RoomModel :=
  let prev := (lookupKey s.participants p).getD ParticipantEntry.empty
  { s with participants := setKey s.participants p { prev with videoEnabled := some enabled } }

/-- The per-call `stream` handler: (re)create the participant entry for
the peer of the call with the received remote stream. -/
def onCallStream (s : RoomModel) (i : Nat) (remoteStream : Nat) : RoomModel :=
  match s.calls[i]? with
  | some c => addParticipant s c.peer remoteStream i c.uname
  | none => s

/-- One step of the event loop (first evolution handlers). -/
def stepA (s : RoomModel) : Event → RoomModel × List Action
  | .admissionStatus status hostStatus => (onAdmissionStatus s status hostStatus, [])
  | .peerOpenEvt id => ({ s with myPeerId := id, peerOpen := true }, [])
  | .userJoined p u => onUserJoined s p u
  | .roomParticipants ps => onRoomParticipants s ps
  | .userLeft p => onUserLeft s p
  | .userRemoved p => onUserLeft s p
  | .userToggleAudio p e => (onUserToggleAudio s p e, [])
  | .userToggleVideo p e => (onUserToggleVideo s p e, [])
  | .incomingCall p => answerIncomingCall s p
  | .callStream i r => (onCallStream s i r, [])
  | .callClose i => (callCloseHandler s i, [])
  | .callError i => (callErrorHandler s i, [])
  | .toggleVideoClick acq => toggleVideo s acq
  | .leaveClick => cleanup s

/-- Run the event loop, accumulating the action trace. -/
def runA (s : RoomModel) : List Event → RoomModel × List Action
  | [] => (s, [])
  | e :: t =>
      let r := stepA s e
      let rest := runA r.1 t
      (rest.1, r.2 ++ rest.2)

/-- Final state after a list of events. -/
def run (s : RoomModel) (evts : List Event) : RoomModel :=
  (runA s evts).1

/-- Result of the media-acquisition part of `initializeConnection`. -/
structure MediaAcquireResult where
  stream : Option Stream
  attempts : Nat
  navigatedHome : Bool
deriving DecidableEq, Repr

/-- The media-acquisition part of `initializeConnection` (first
evolution): exactly one `getUserMedia` request is made.  On success the
stream is kept and initialization continues; on any failure the catch
block notifies and navigates home.  `device n` is the outcome the
environment would give to the n-th `getUserMedia` request. -/
def initializeConnectionMedia (device : Nat → Option Stream) : MediaAcquireResult :=
  match device 0 with
  | some st => { stream := some st, attempts := 1, navigatedHome := false }
  | none => { stream := none, attempts := 1, navigatedHome := true }

/-- A camera+microphone stream used for concrete runs. -/
def demoStream : Stream := [⟨0, .video⟩, ⟨1, .audio⟩]

/-- A device on which the first two `getUserMedia` requests fail and
every later one succeeds. -/
def failTwiceDevice : Nat → Option Stream :=
  fun n => if n < 2 then none else some demoStream

/-- Whether every `calls` entry at index `i` (if any) is closed. -/
def ClosedAt (cs : List MediaCall) (i : Nat) : Prop :=
  ∀ c, cs[i]? = some c → c.closed = true

/-- The two maps of the session have no duplicate keys. -/
def KeysNodup (s : RoomModel) : Prop :=
  (keysOf s.peers).Nodup ∧ (keysOf s.participants).Nodup

/-- State in which the local stream reference is absent, delivered an
incoming call. -/
def sC8 : RoomModel :=
  { initModel [] with
      streamRef := none
      roomState := .approved
      connectionEstablished := true
      peerOpen := true
      myPeerId := "me" }

/-- State with a pending inbound call from peer `R` whose participants
entry was first created by a toggle event with `audioEnabled = false`. -/
def sC10 : RoomModel :=
  onUserToggleAudio
    ((answerIncomingCall
        (run (initModel demoStream)
          [.admissionStatus "approved" false, .peerOpenEvt "me"]) "R").1)
    "R" false

/-- Events of the two-sided initiation scenario: after approval, peer p2
joins and an outbound call to p2 is placed and registered. -/
def evC2 : List Event :=
  [.admissionStatus "approved" false, .peerOpenEvt "me", .userJoined "p2" "Bo"]

/-- Trace in which a call is placed, necessarily after approval. -/
def evC3 : List Event :=
  [.admissionStatus "approved" true, .peerOpenEvt "me", .userJoined "p2" "Bo"]

/-- Events leading to an established session with one open call. -/
def evC5 : List Event :=
  [.admissionStatus "approved" false, .peerOpenEvt "me",
   .userJoined "p2" "Bo", .callStream 0 5]

/-- Events of the failing scenario for track replacement: a call to A is
placed while video is on, video is toggled off (stream becomes
audio-only), a call to B is placed with that audio-only stream, then
video is toggled back on with a freshly acquired stream. -/
def evC6 : List Event :=
  [.admissionStatus "approved" false, .peerOpenEvt "me",
   .userJoined "A" "Ann", .toggleVideoClick none,
   .userJoined "B" "Bo",
   .toggleVideoClick (some [⟨20, .video⟩, ⟨21, .audio⟩])]

/-- Claim C7: state with one inbound call from peer `P` whose remote
stream has arrived (participant present, registry entry present). -/
def sC7 : RoomModel :=
  onCallStream
    ((answerIncomingCall
        (run (initModel demoStream)
          [.admissionStatus "approved" false, .peerOpenEvt "me"]) "P").1)
    0 9

theorem lookupKey_setKey_self {α : Type} (l : List (String × α)) (k : String) (v : α) :
    lookupKey (setKey l k v) k = some v := by
  induction l with
  | nil => simp [setKey, lookupKey]
  | cons hd t ih =>
      obtain ⟨k', v'⟩ := hd
      by_cases h : k' = k
      · simp [setKey, h, lookupKey]
      · simp [setKey, h, lookupKey, ih]

theorem lookupKey_setKey_ne {α : Type} (l : List (String × α)) (k k' : String) (v : α)
    (h : k ≠ k') : lookupKey (setKey l k v) k' = lookupKey l k' := by
  induction l with
  | nil => simp [setKey, lookupKey, h]
  | cons hd t ih =>
      obtain ⟨k₀, v₀⟩ := hd
      by_cases h₀ : k₀ = k
      · subst h₀
        simp [setKey, lookupKey, h]
      · simp [setKey, h₀, lookupKey, ih]

theorem lookupKey_eraseKey_self {α : Type} (l : List (String × α)) (k : String) :
    lookupKey (eraseKey l k) k = none := by
  induction l with
  | nil => simp [eraseKey, lookupKey]
  | cons hd t ih =>
      obtain ⟨k₀, v₀⟩ := hd
      by_cases h₀ : k₀ = k
      · subst h₀
        simpa [eraseKey, lookupKey] using ih
      · simp only [eraseKey, List.filter_cons] at ih ⊢
        have : (k₀ != k) = true := by simpa [bne_iff_ne] using h₀
        simp [this, lookupKey, h₀, ih]

theorem lookupKey_eraseKey_ne {α : Type} (l : List (String × α)) (k k' : String)
    (h : k ≠ k') : lookupKey (eraseKey l k) k' = lookupKey l k' := by
  induction l with
  | nil => simp [eraseKey, lookupKey]
  | cons hd t ih =>
      obtain ⟨k₀, v₀⟩ := hd
      by_cases h₀ : k₀ = k
      · have hb : (k₀ != k) = false := by simp [h₀]
        have hk : k₀ ≠ k' := h₀ ▸ h
        simp only [eraseKey, List.filter_cons, hb, Bool.false_eq_true, if_false] at ih ⊢
        simp [lookupKey, hk, ih]
      · have hb : (k₀ != k) = true := by simpa [bne_iff_ne] using h₀
        simp only [eraseKey, List.filter_cons, hb] at ih ⊢
        by_cases h₁ : k₀ = k'
        · simp [lookupKey, h₁]
        · simp [lookupKey, h₁, ih]

theorem keysOf_setKey {α : Type} (l : List (String × α)) (k : String) (v : α) :
    keysOf (setKey l k v) =
      if k ∈ keysOf l then keysOf l else keysOf l ++ [k] := by
  induction l with
  | nil => simp [setKey, keysOf]
  | cons hd t ih =>
      obtain ⟨k₀, v₀⟩ := hd
      by_cases h₀ : k₀ = k
      · subst h₀
        simp [setKey, keysOf]
      · have hne : ¬ k = k₀ := fun h => h₀ h.symm
        by_cases hmem : k ∈ keysOf t
        · simp only [keysOf] at ih hmem
          simp [setKey, h₀, keysOf, hmem, hne, ih]
        · simp only [keysOf] at ih hmem
          simp [setKey, h₀, keysOf, hmem, hne, ih]

theorem keysOf_setKey_nodup {α : Type} (l : List (String × α)) (k : String) (v : α)
    (h : (keysOf l).Nodup) : (keysOf (setKey l k v)).Nodup := by
  rw [keysOf_setKey]
  by_cases hmem : k ∈ keysOf l
  · simpa [hmem] using h
  · simp only [hmem, if_false]
    refine List.Nodup.append h (List.nodup_singleton k) ?_
    intro x hx hx'
    simp only [List.mem_singleton] at hx'
    exact hmem (hx' ▸ hx)

theorem keysOf_eraseKey_nodup {α : Type} (l : List (String × α)) (k : String)
    (h : (keysOf l).Nodup) : (keysOf (eraseKey l k)).Nodup := by
  have hsub : List.Sublist (keysOf (eraseKey l k)) (keysOf l) :=
    List.Sublist.map Prod.fst (List.filter_sublist l)
  exact h.sublist hsub

theorem keysNodup_makeCall (s : RoomModel) (p u : String) (h : KeysNodup s) :
    KeysNodup (makeCall s p u).1 := by
  unfold makeCall
  split
  · exact h
  · exact ⟨keysOf_setKey_nodup _ _ _ h.1, h.2⟩

theorem keysNodup_roomParticipantsStep (acc : RoomModel × List Action)
    (pu : String × String) (h : KeysNodup acc.1) :
    KeysNodup (roomParticipantsStep acc pu).1 := by
  unfold roomParticipantsStep
  split
  · exact keysNodup_makeCall _ _ _ h
  · exact h

theorem keysNodup_foldl (ps : List (String × String)) (acc : RoomModel × List Action)
    (h : KeysNodup acc.1) : KeysNodup ((ps.foldl roomParticipantsStep acc).1) := by
  induction ps generalizing acc with
  | nil => exact h
  | cons hd t ih =>
      exact ih _ (keysNodup_roomParticipantsStep acc hd h)

theorem keysNodup_removeParticipant (s : RoomModel) (p : String) (h : KeysNodup s) :
    KeysNodup (removeParticipant s p) :=
  ⟨keysOf_eraseKey_nodup _ _ h.1, keysOf_eraseKey_nodup _ _ h.2⟩

theorem keysNodup_step (s : RoomModel) (e : Event) (h : KeysNodup s) :
    KeysNodup (stepA s e).1 := by
  cases e with
  | admissionStatus status hostStatus =>
      simp only [stepA, onAdmissionStatus]
      split
      · exact h
      · split
        · exact h
        · split
          · exact h
          · exact h
  | peerOpenEvt id => exact h
  | userJoined p u =>
      simp only [stepA, onUserJoined]
      split
      · exact keysNodup_makeCall _ _ _ h
      · exact h
  | roomParticipants ps =>
      simp only [stepA, onRoomParticipants]
      split
      · exact keysNodup_foldl _ _ h
      · exact h
  | userLeft p =>
      simp only [stepA, onUserLeft]
      split
      · split
        · exact ⟨keysOf_eraseKey_nodup _ _ h.1, keysOf_eraseKey_nodup _ _ h.2⟩
        · exact ⟨h.1, keysOf_eraseKey_nodup _ _ h.2⟩
      · exact ⟨h.1, keysOf_eraseKey_nodup _ _ h.2⟩
  | userRemoved p =>
      simp only [stepA, onUserLeft]
      split
      · split
        · exact ⟨keysOf_eraseKey_nodup _ _ h.1, keysOf_eraseKey_nodup _ _ h.2⟩
        · exact ⟨h.1, keysOf_eraseKey_nodup _ _ h.2⟩
      · exact ⟨h.1, keysOf_eraseKey_nodup _ _ h.2⟩
  | userToggleAudio p en =>
      exact ⟨h.1, keysOf_setKey_nodup _ _ _ h.2⟩
  | userToggleVideo p en =>
      exact ⟨h.1, keysOf_setKey_nodup _ _ _ h.2⟩
  | incomingCall p =>
      exact ⟨keysOf_setKey_nodup _ _ _ h.1, h.2⟩
  | callStream i r =>
      simp only [stepA, onCallStream]
      split
      · exact ⟨h.1, keysOf_setKey_nodup _ _ _ h.2⟩
      · exact h
  | callClose i =>
      simp only [stepA, callCloseHandler]
      split
      · exact keysNodup_removeParticipant _ _ h
      · exact h
  | callError i =>
      simp only [stepA, callErrorHandler]
      split
      · exact keysNodup_removeParticipant _ _ h
      · exact h
  | toggleVideoClick acq =>
      simp only [stepA, toggleVideo]
      split
      · split
        · exact h
        · exact h
      · split
        · exact h
        · exact h
  | leaveClick => exact h

theorem keysNodup_runA (s : RoomModel) (evts : List Event) (h : KeysNodup s) :
    KeysNodup (runA s evts).1 := by
  induction evts generalizing s with
  | nil => exact h
  | cons e t ih =>
      simp only [runA]
      exact ih _ (keysNodup_step s e h)

theorem makeCall_established (s : RoomModel) (p u : String) :
    (makeCall s p u).1.connectionEstablished = s.connectionEstablished := by
  unfold makeCall
  split
  · rfl
  · rfl

theorem roomParticipantsStep_established (acc : RoomModel × List Action)
    (pu : String × String) :
    (roomParticipantsStep acc pu).1.connectionEstablished =
      acc.1.connectionEstablished := by
  unfold roomParticipantsStep
  split
  · exact makeCall_established _ _ _
  · rfl

theorem foldl_roomParticipants_established (ps : List (String × String))
    (acc : RoomModel × List Action) :
    ((ps.foldl roomParticipantsStep acc).1).connectionEstablished =
      acc.1.connectionEstablished := by
  induction ps generalizing acc with
  | nil => rfl
  | cons hd t ih =>
      rw [List.foldl_cons, ih, roomParticipantsStep_established]

/-- No event other than `admission-status` with status `"approved"` can
set the established flag. -/
theorem step_preserves_not_established (s : RoomModel) (e : Event)
    (hs : s.connectionEstablished = false)
    (he : ∀ b, e ≠ .admissionStatus "approved" b) :
    (stepA s e).1.connectionEstablished = false := by
  cases e with
  | admissionStatus status b =>
      simp only [stepA, onAdmissionStatus]
      split
      · next hst => exact absurd (by rw [hst]) (he b)
      · split
        · exact hs
        · split
          · exact hs
          · exact hs
  | peerOpenEvt id => exact hs
  | userJoined p u =>
      simp only [stepA, onUserJoined]
      split
      · rw [makeCall_established]; exact hs
      · exact hs
  | roomParticipants ps =>
      simp only [stepA, onRoomParticipants]
      split
      · rw [foldl_roomParticipants_established]; exact hs
      · exact hs
  | userLeft p =>
      simp only [stepA, onUserLeft]
      split
      · split
        · exact hs
        · exact hs
      · exact hs
  | userRemoved p =>
      simp only [stepA, onUserLeft]
      split
      · split
        · exact hs
        · exact hs
      · exact hs
  | userToggleAudio p en => exact hs
  | userToggleVideo p en => exact hs
  | incomingCall p => exact hs
  | callStream i r =>
      simp only [stepA, onCallStream]
      split
      · exact hs
      · exact hs
  | callClose i =>
      simp only [stepA, callCloseHandler]
      split
      · exact hs
      · exact hs
  | callError i =>
      simp only [stepA, callErrorHandler]
      split
      · exact hs
      · exact hs
  | toggleVideoClick acq =>
      simp only [stepA, toggleVideo]
      split
      · split
        · exact hs
        · exact hs
      · split
        · exact hs
        · exact hs
  | leaveClick => rfl

/-- While the established flag is down, no handler invokes `makeCall`. -/
theorem step_no_invokedMakeCall (s : RoomModel) (e : Event) (p : String)
    (hs : s.connectionEstablished = false) :
    Action.invokedMakeCall p ∉ (stepA s e).2 := by
  cases e with
  | admissionStatus status b => simp [stepA]
  | peerOpenEvt id => simp [stepA]
  | userJoined q u =>
      simp only [stepA, onUserJoined]
      split
      · next hcond => rw [hs] at hcond; simp at hcond
      · simp
  | roomParticipants ps =>
      simp only [stepA, onRoomParticipants]
      rw [hs]
      simp
  | userLeft q =>
      simp only [stepA, onUserLeft]
      split
      · split
        · simp
        · simp
      · simp
  | userRemoved q =>
      simp only [stepA, onUserLeft]
      split
      · split
        · simp
        · simp
      · simp
  | userToggleAudio q en => simp [stepA]
  | userToggleVideo q en => simp [stepA]
  | incomingCall q => simp [stepA, answerIncomingCall]
  | callStream i r => simp [stepA]
  | callClose i => simp [stepA]
  | callError i => simp [stepA]
  | toggleVideoClick acq =>
      simp only [stepA, toggleVideo]
      split
      · split
        · simp
        · simp
      · split
        · simp
        · simp
  | leaveClick =>
      simp only [stepA, cleanup]
      intro hmem
      simp only [List.mem_append, List.mem_cons, List.mem_singleton,
        List.mem_map] at hmem
      rcases hmem with ((((h | h) | ⟨a, _, h⟩) | ⟨a, _, h⟩) | h) | h <;> simp_all

/-- Starting from a state with the flag down, a trace containing no
approved admission event invokes no call and keeps the flag down. -/
theorem no_call_without_established (s : RoomModel) (evts : List Event)
    (hs : s.connectionEstablished = false)
    (hno : ∀ b, Event.admissionStatus "approved" b ∉ evts) :
    (∀ p, Action.invokedMakeCall p ∉ (runA s evts).2) ∧
      (runA s evts).1.connectionEstablished = false := by
  induction evts generalizing s with
  | nil => exact ⟨fun p => by simp [runA], hs⟩
  | cons e t ih =>
      have hne : ∀ b, e ≠ .admissionStatus "approved" b := by
        intro b hb
        exact hno b (by simp [hb])
      have hnt : ∀ b, Event.admissionStatus "approved" b ∉ t := by
        intro b hb
        exact hno b (by simp [hb])
      have hs' := step_preserves_not_established s e hs hne
      have iht := ih (stepA s e).1 hs' hnt
      constructor
      · intro p
        simp only [runA, List.mem_append]
        rintro (h | h)
        · exact step_no_invokedMakeCall s e p hs h
        · exact iht.1 p h
      · simpa only [runA] using iht.2

theorem closedAt_closeCallAt_self (cs : List MediaCall) (j : Nat) :
    ClosedAt (closeCallAt cs j) j := by
  intro c hc
  unfold closeCallAt at hc
  split at hc
  · next c₀ hc₀ =>
      have hlt : j < cs.length := by
        by_contra hge
        rw [List.getElem?_eq_none (Nat.le_of_not_lt hge)] at hc₀
        cases hc₀
      rw [List.getElem?_set_eq_of_lt _ hlt] at hc
      cases hc
      rfl
  · next hc₀ => rw [hc₀] at hc; cases hc

theorem closedAt_closeCallAt_preserve (cs : List MediaCall) (j i : Nat)
    (h : ClosedAt cs i) : ClosedAt (closeCallAt cs j) i := by
  by_cases hij : i = j
  · subst hij
    exact closedAt_closeCallAt_self cs i
  · intro c hc
    unfold closeCallAt at hc
    split at hc
    · rw [List.getElem?_set_ne (fun hji => hij hji.symm)] at hc
      exact h c hc
    · exact h c hc

theorem closedAt_closeAllCalls (peers : List (String × Nat)) (cs : List MediaCall)
    (i : Nat) (h : i ∈ peers.map Prod.snd ∨ ClosedAt cs i) :
    ClosedAt (closeAllCalls peers cs) i := by
  induction peers generalizing cs with
  | nil =>
      rcases h with h | h
      · cases h
      · exact h
  | cons hd t ih =>
      rcases h with h | h
      · simp only [List.map_cons, List.mem_cons] at h
        rcases h with h | h
        · subst h
          exact ih _ (Or.inr (closedAt_closeCallAt_self cs hd.2))
        · exact ih _ (Or.inl h)
      · exact ih _ (Or.inr (closedAt_closeCallAt_preserve cs hd.2 i h))

/-- Claim C1, counterexample: from the terminal state `denied`, a later
`admission-status` event with status `approved` moves the state to
`approved`; the claimed terminal-state monotonicity fails on the code. -/
theorem C1_counterexample :
    (run (initModel demoStream) [.admissionStatus "denied" false]).roomState =
      RoomStatus.denied ∧
    (run (initModel demoStream)
        [.admissionStatus "denied" false,
         .admissionStatus "approved" false]).roomState = RoomStatus.approved :=
  ⟨rfl, rfl⟩

/-- Claim C1, amended: the admission handler applies the status of the
event unconditionally, ignoring the current state; `approved` (which
also sets the established flag and the host flag), `waiting` and
`denied` are each entered from every state, including from the other
terminal state. -/
theorem C1_admission_unconditional (s : RoomModel) (b : Bool) :
    (onAdmissionStatus s "approved" b).roomState = RoomStatus.approved ∧
    (onAdmissionStatus s "approved" b).connectionEstablished = true ∧
    (onAdmissionStatus s "approved" b).isHost = b ∧
    (onAdmissionStatus s "waiting" b).roomState = RoomStatus.waiting ∧
    (onAdmissionStatus s "denied" b).roomState = RoomStatus.denied :=
  ⟨rfl, rfl, rfl, rfl, rfl⟩

/-- Claim C4, counterexample: on a device whose first two capture
requests fail and whose third succeeds, the claim promises a working
stream after two retries; the code makes a single attempt, keeps no
stream, and navigates home. -/
theorem C4_counterexample :
    initializeConnectionMedia failTwiceDevice =
      { stream := none, attempts := 1, navigatedHome := true } ∧
    failTwiceDevice 2 = some demoStream :=
  ⟨rfl, rfl⟩

/-- Claim C4, amended: media acquisition performs exactly one
`getUserMedia` attempt and its outcome is final - there is no retry
loop, no audio-only fallback and no error classification; a failed
first attempt aborts the session and navigates home. -/
theorem C4_single_attempt (device : Nat → Option Stream) :
    (initializeConnectionMedia device).attempts = 1 ∧
    (initializeConnectionMedia device).stream = device 0 ∧
    (initializeConnectionMedia device).navigatedHome = (device 0).isNone := by
  unfold initializeConnectionMedia
  cases device 0 <;> simp

/-- Claim C8, counterexample: with no local stream, an incoming call is
still answered (passing the absent stream) and registered; it is not
rejected, contradicting the claimed answer-iff-stream behavior. -/
theorem C8_counterexample :
    (stepA sC8 (.incomingCall "Q")).2 = [.answeredCall "Q" none] ∧
    Action.rejectedCall "Q" ∉ (stepA sC8 (.incomingCall "Q")).2 ∧
    lookupKey (stepA sC8 (.incomingCall "Q")).1.peers "Q" = some 0 :=
  ⟨rfl, by decide, rfl⟩

/-- Claim C8, amended: every incoming call is answered unconditionally
with the current local stream reference (present or not) and registered
under the calling peer; no rejection is ever emitted and no call is left
pending. -/
theorem C8_always_answered (s : RoomModel) (p : String) :
    (stepA s (.incomingCall p)).2 = [.answeredCall p s.streamRef] ∧
    lookupKey (stepA s (.incomingCall p)).1.peers p = some s.calls.length ∧
    ∀ q, Action.rejectedCall q ∉ (stepA s (.incomingCall p)).2 := by
  refine ⟨rfl, lookupKey_setKey_self _ _ _, ?_⟩
  intro q
  simp [stepA, answerIncomingCall]

/-- Claim C9: a remote toggle event for a peer with no participants
entry creates an entry holding only the toggled flag - no id, no peer
id, no display name, no stream and no call handle. -/
theorem C9_minimal_entry (s : RoomModel) (p : String) (e : Bool)
    (h : lookupKey s.participants p = none) :
    lookupKey (onUserToggleAudio s p e).participants p =
      some { ParticipantEntry.empty with audioEnabled := some e } ∧
    lookupKey (onUserToggleVideo s p e).participants p =
      some { ParticipantEntry.empty with videoEnabled := some e } := by
  constructor
  · simp only [onUserToggleAudio, h]
    exact lookupKey_setKey_self _ _ _
  · simp only [onUserToggleVideo, h]
    exact lookupKey_setKey_self _ _ _

/-- Claim C9, witness: toggling audio off for an unknown peer of a fresh
session yields exactly the one-flag entry. -/
theorem C9_minimal_entry_witness :
    lookupKey (initModel demoStream).participants "x" = none ∧
    lookupKey (onUserToggleAudio (initModel demoStream) "x" false).participants "x" =
      some { ParticipantEntry.empty with audioEnabled := some false } :=
  ⟨rfl, (C9_minimal_entry (initModel demoStream) "x" false rfl).1⟩

/-- Claim C10: whenever a remote stream arrives for a registered call,
the participant entry for the peer of that call is rebuilt wholesale
with `audioEnabled` and `videoEnabled` both `true`, regardless of any
flags previously recorded for that peer. -/
theorem C10_stream_overwrites_flags (s : RoomModel) (i : Nat) (c : MediaCall)
    (r : Nat) (h : s.calls[i]? = some c) :
    lookupKey (onCallStream s i r).participants c.peer =
      some { pid := some c.peer
             peerId := some c.peer
             username := some (c.uname.getD "Unknown")
             stream := some r
             call := some i
             audioEnabled := some true
             videoEnabled := some true } := by
  simp only [onCallStream, h, addParticipant]
  exact lookupKey_setKey_self _ _ _

/-- Claim C10, witness: the previously recorded `audioEnabled = false`
flag for peer `R` is overwritten with `true` when the remote stream of
its call arrives. -/
theorem C10_stream_overwrites_flags_witness :
    (lookupKey sC10.participants "R").map ParticipantEntry.audioEnabled =
      some (some false) ∧
    lookupKey (onCallStream sC10 0 7).participants "R" =
      some { pid := some "R"
             peerId := some "R"
             username := some "Unknown"
             stream := some 7
             call := some 0
             audioEnabled := some true
             videoEnabled := some true } :=
  ⟨rfl,
   C10_stream_overwrites_flags sC10 0
     { peer := "R", inbound := true, uname := none,
       videoSender := some 0, audioSender := some 1, closed := false } 7 rfl⟩

/-- Claim C2: in every reachable state the peer registry and the
participants map hold at most one entry per peer identifier, and
`makeCall` towards a peer that already has a registry entry (created by
either the outbound or the inbound path) is a no-op: the state is
unchanged and no call is placed, so both sides initiating yields a
single registered connection. -/
theorem C2_mesh_dedup (st : Stream) (evts : List Event) (p u : String)
    (h : (lookupKey (run (initModel st) evts).peers p).isSome = true) :
    (keysOf (run (initModel st) evts).peers).Nodup ∧
    (keysOf (run (initModel st) evts).participants).Nodup ∧
    makeCall (run (initModel st) evts) p u =
      (run (initModel st) evts, [.invokedMakeCall p]) := by
  have hinv := keysNodup_runA (initModel st) evts ⟨List.nodup_nil, List.nodup_nil⟩
  refine ⟨hinv.1, hinv.2, ?_⟩
  unfold makeCall
  rw [if_pos (Or.inr h)]

/-- Claim C2, witness: with p2 already registered, a roster-triggered
`makeCall` towards p2 changes nothing and places no second call. -/
theorem C2_mesh_dedup_witness :
    (lookupKey (run (initModel demoStream) evC2).peers "p2").isSome = true ∧
    makeCall (run (initModel demoStream) evC2) "p2" "Ann" =
      (run (initModel demoStream) evC2, [.invokedMakeCall "p2"]) :=
  ⟨rfl, (C2_mesh_dedup demoStream evC2 "p2" "Ann" rfl).2.2⟩

/-- Claim C3: `makeCall` is only ever invoked on traces that contain an
`admission-status` event with status `approved`; no outbound call is
placed while the established flag has never been set. -/
theorem C3_no_call_before_approval (st : Stream) (evts : List Event) (p : String)
    (h : Action.invokedMakeCall p ∈ (runA (initModel st) evts).2) :
    ∃ b, Event.admissionStatus "approved" b ∈ evts := by
  by_contra hno
  push_neg at hno
  exact (no_call_without_established (initModel st) evts rfl hno).1 p h

/-- Claim C3, witness: the concrete trace invokes `makeCall` and indeed
contains the approval event. -/
theorem C3_no_call_before_approval_witness :
    Action.invokedMakeCall "p2" ∈ (runA (initModel demoStream) evC3).2 ∧
    ∃ b, Event.admissionStatus "approved" b ∈ evC3 :=
  ⟨by decide, C3_no_call_before_approval demoStream evC3 "p2" (by decide)⟩

/-- Claim C5, counterexample: on a session with one connected peer,
`cleanup` clears the established flag FIRST (the claim puts flag
clearing last), and afterwards the peer registry still holds its entry
(the claim promises zero entries). -/
theorem C5_counterexample :
    (cleanup (run (initModel demoStream) evC5)).2 =
      [.clearEstablished, .stopTrack 0, .stopTrack 1, .closeCall 0,
       .destroyPeer, .disconnectSocket] ∧
    (cleanup (run (initModel demoStream) evC5)).1.peers = [("p2", 0)] :=
  ⟨rfl, rfl⟩

/-- Claim C5, amended: `cleanup` clears the established flag first, then
stops every local track, then closes every registered call, then
destroys the peer identity, then disconnects the socket - in that order;
the registry and the participants map are left untouched (entries
remain, pointing at closed calls), rather than being emptied. -/
theorem C5_cleanup_behavior (s : RoomModel) :
    (cleanup s).1.connectionEstablished = false ∧
    (cleanup s).1.peerDestroyed = true ∧
    (cleanup s).1.socketConnected = false ∧
    (cleanup s).1.peers = s.peers ∧
    (cleanup s).1.participants = s.participants ∧
    (∀ st, s.streamRef = some st → ∀ t ∈ st, t.tid ∈ (cleanup s).1.stoppedIds) ∧
    (∀ pi ∈ s.peers, ClosedAt (cleanup s).1.calls pi.2) ∧
    (∃ stops closes,
      (cleanup s).2 =
        [Action.clearEstablished] ++ stops ++ closes ++
          (if s.peerDestroyed then [] else [Action.destroyPeer]) ++
          [Action.disconnectSocket] ∧
      (∀ a ∈ stops, ∃ t, a = Action.stopTrack t) ∧
      (∀ a ∈ closes, ∃ i, a = Action.closeCall i)) := by
  refine ⟨rfl, rfl, rfl, rfl, rfl, ?_, ?_, ?_⟩
  · intro st hst t ht
    simp only [cleanup, hst]
    exact List.mem_append_left _ (List.mem_map.2 ⟨t, ht, rfl⟩)
  · intro pi hpi
    exact closedAt_closeAllCalls s.peers s.calls pi.2
      (Or.inl (List.mem_map.2 ⟨pi, hpi, rfl⟩))
  · cases hsr : s.streamRef with
    | none =>
        refine ⟨[], s.peers.map (fun pi => Action.closeCall pi.2), ?_, ?_, ?_⟩
        · simp [cleanup, hsr]
        · intro a ha
          cases ha
        · intro a ha
          rcases List.mem_map.1 ha with ⟨pi, _, rfl⟩
          exact ⟨pi.2, rfl⟩
    | some st =>
        refine ⟨(st.map Track.tid).map Action.stopTrack,
          s.peers.map (fun pi => Action.closeCall pi.2), ?_, ?_, ?_⟩
        · simp [cleanup, hsr]
        · intro a ha
          rcases List.mem_map.1 ha with ⟨t, _, rfl⟩
          exact ⟨t, rfl⟩
        · intro a ha
          rcases List.mem_map.1 ha with ⟨pi, _, rfl⟩
          exact ⟨pi.2, rfl⟩

/-- Claim C5, witness: concrete consequences of the amended theorem on
the one-peer session. -/
theorem C5_cleanup_behavior_witness :
    (run (initModel demoStream) evC5).streamRef = some demoStream ∧
    (0 : Nat) ∈ (cleanup (run (initModel demoStream) evC5)).1.stoppedIds ∧
    ClosedAt (cleanup (run (initModel demoStream) evC5)).1.calls 0 :=
  ⟨rfl,
   (C5_cleanup_behavior (run (initModel demoStream) evC5)).2.2.2.2.2.1
     demoStream rfl ⟨0, .video⟩ (by decide),
   (C5_cleanup_behavior (run (initModel demoStream) evC5)).2.2.2.2.2.2.1
     ("p2", 0) (by decide)⟩

/-- Claim C6, code evaluated at the failing input: after toggling video
off and back on, the connection to A carries the new video track 20, but
the connection to B - created during the off window with no video sender
to replace - carries no outbound video at all; the old video track 0 is
stopped.  Track replacement was applied to a strict subset of the open
connections. -/
theorem C6_subset_replacement :
    (run (initModel demoStream) evC6).calls =
      [{ peer := "A", inbound := false, uname := some "Ann",
         videoSender := some 20, audioSender := some 21, closed := false },
       { peer := "B", inbound := false, uname := some "Bo",
         videoSender := none, audioSender := some 21, closed := false }] ∧
    (run (initModel demoStream) evC6).stoppedIds = [1, 0] ∧
    (run (initModel demoStream) evC6).videoEnabled = true :=
  ⟨rfl, rfl, rfl⟩

/-- Claim C7, counterexample: in the second evolution, the error handler
of an inbound call removes nothing - both the participants entry and the
registry entry for `P` survive the call error, contradicting the claim
that every close/error path removes both. -/
theorem C7_counterexample :
    sC7.calls =
      [{ peer := "P", inbound := true, uname := none,
         videoSender := some 0, audioSender := some 1, closed := false }] ∧
    callErrorHandlerSecondEvo sC7 0 = sC7 ∧
    (lookupKey sC7.participants "P").isSome = true ∧
    (lookupKey sC7.peers "P").isSome = true :=
  ⟨rfl, rfl, rfl, rfl⟩

/-- Claim C7, amended: the close handler (both evolutions) and the first
evolution error handler always remove the participants entry and the
registry entry of the peer of the erroring call together; the second
evolution error handler does the same for outbound calls but removes
neither on an inbound call (the state is unchanged) - in no path is
exactly one of the two removed. -/
theorem C7_eviction_behavior (s : RoomModel) (i : Nat) (c : MediaCall)
    (h : s.calls[i]? = some c) :
    lookupKey (callCloseHandler s i).participants c.peer = none ∧
    lookupKey (callCloseHandler s i).peers c.peer = none ∧
    lookupKey (callErrorHandler s i).participants c.peer = none ∧
    lookupKey (callErrorHandler s i).peers c.peer = none ∧
    (c.inbound = true → callErrorHandlerSecondEvo s i = s) ∧
    (c.inbound = false →
      lookupKey (callErrorHandlerSecondEvo s i).participants c.peer = none ∧
      lookupKey (callErrorHandlerSecondEvo s i).peers c.peer = none) := by
  simp only [callCloseHandler, callErrorHandler, callErrorHandlerSecondEvo, h]
  refine ⟨lookupKey_eraseKey_self _ _, lookupKey_eraseKey_self _ _,
    lookupKey_eraseKey_self _ _, lookupKey_eraseKey_self _ _, ?_, ?_⟩
  · intro hin
    simp [hin]
  · intro hout
    simp only [hout, Bool.false_eq_true, if_false]
    exact ⟨lookupKey_eraseKey_self _ _, lookupKey_eraseKey_self _ _⟩

/-- Claim C7, witness: on the concrete inbound-call state, the first
evolution error handler evicts both entries and the second evolution
error handler leaves the state unchanged. -/
theorem C7_eviction_behavior_witness :
    sC7.calls[0]? =
      some { peer := "P", inbound := true, uname := none,
             videoSender := some 0, audioSender := some 1, closed := false } ∧
    lookupKey (callErrorHandler sC7 0).participants "P" = none ∧
    lookupKey (callErrorHandler sC7 0).peers "P" = none ∧
    callErrorHandlerSecondEvo sC7 0 = sC7 :=
  ⟨rfl,
   (C7_eviction_behavior sC7 0
     { peer := "P", inbound := true, uname := none,
       videoSender := some 0, audioSender := some 1, closed := false } rfl).2.2.1,
   (C7_eviction_behavior sC7 0
     { peer := "P", inbound := true, uname := none,
       videoSender := some 0, audioSender := some 1, closed := false } rfl).2.2.2.1,
   (C7_eviction_behavior sC7 0
     { peer := "P", inbound := true, uname := none,
       videoSender := some 0, audioSender := some 1, closed := false } rfl).2.2.2.2.1 rfl⟩

end VideoConf
